import Mathlib

/-!
Verification of the Laica Smart Scale advertisement decoder
(`custom_components/laica_smart_scale/laica_parser.py`).

The decoder is embedded shallowly: payloads are modelled as `List Nat` of byte
values, Python's arbitrary-precision integers as `Nat`, Python floats carrying
`weight_kg` as exact rationals (see `round_half_to_even_div` for why this is
faithful), and the heterogeneous per-attempt diagnostic dictionaries as a
record of optional fields.
-/

namespace Laica

/-- Obfuscation key: every value byte is XORed with `0xA0` (`laica_parser.py`). -/
def XOR_KEY : Nat := 0xA0

def PACKET_TYPE_WEIGHT : Nat := 0x0D

def PACKET_TYPE_IMPEDANCE : Nat := 0x06

def KNOWN_TYPE_OFFSET : Nat := 10

def KNOWN_VALUE_OFFSET : Nat := 6

def WEIGHT_VALUE_MASK : Nat := 0x3FFFF

def WEIGHT_STABLE_BIT : Nat := 0x80000000

/-- The byte-wise XOR transform inside `_decrypt_to_int`:
`bytes((b ^ 0xA0) for b in data)`. -/
def xor_transform (data : List Nat) : List Nat :=
  data.map (fun b => b ^^^ XOR_KEY)

/-- `_decrypt_to_int`: XOR each byte with `0xA0`, then read the result as an
unsigned big-endian integer (`int.from_bytes(decrypted, "big")`). -/
def _decrypt_to_int (data : List Nat) : Nat :=
  (xor_transform data).foldl (fun acc b => acc * 256 + b) 0

/-- Lowercase hex rendering of a natural number (Python `"%x" % n`). -/
def hexStr (n : Nat) : String :=
  String.mk (Nat.toDigits 16 n)

/-- Zero-pad a string on the left to `width` characters. -/
def zeroPad (width : Nat) (s : String) : String :=
  String.mk (List.replicate (width - s.length) '0' ++ s.data)

/-- Python `f"0x{n:0{width}x}"`. -/
def hexPad (width n : Nat) : String :=
  "0x" ++ zeroPad width (hexStr n)

/-- Python `payload.hex()`. -/
def bytesHex (l : List Nat) : String :=
  String.join (l.map (fun b => zeroPad 2 (hexStr b)))

/-- Model of Python `round(n / d)` (`d > 0`) as executed at
`weight_kg = round(raw_masked / 100) / 10`: round half to even on the exact
rational `n / d`.  For every `raw_masked < 2^18` the IEEE-754 double
`raw_masked / 100` is within `2^-40` of the exact rational while never
crossing or landing on a half-integer boundary unless the exact rational is
itself a (representable) half-integer, so Python's banker's rounding of the
float agrees with this exact-rational round-half-to-even. -/
def round_half_to_even_div (n d : Nat) : Nat :=
  let q := n / d
  let r := n % d
  if d < 2 * r then q + 1
  else if 2 * r < d then q
  else if q % 2 = 0 then q else q + 1

inductive PacketKind where
  | weight
  | impedance
deriving DecidableEq, Repr

inductive AttemptStatus where
  | accepted
  | rejected
deriving DecidableEq, Repr

inductive RejectReason where
  | payload_too_short
  | unknown_type_byte_at_known_offset
  | value_bytes_out_of_range
  | weight_out_of_range
  | impedance_out_of_range
deriving DecidableEq, Repr

/-- `LaicaParsedPacket` dataclass. -/
structure LaicaParsedPacket where
  kind : PacketKind
  type_byte_offset : Nat
  value_offset : Nat
  value_length : Nat
  weight_kg : Option ℚ := none
  impedance_ohm : Option Nat := none
  is_stable : Option Bool := none
  raw_flags : Option Nat := none
  raw_decrypted_int : Option Nat := none
  raw_decrypted_hex : Option String := none
  notes : Option String := none
deriving DecidableEq, Repr

/-- One per-attempt diagnostic dictionary (`attempt: dict[str, Any]`), with
each key that some code path writes modelled as an optional field. -/
structure AttemptRecord where
  scheme : String
  status : AttemptStatus := .rejected
  reason : Option RejectReason := none
  kind : Option PacketKind := none
  type_offset : Option Nat := none
  type_byte : Option Nat := none
  value_offset : Option Nat := none
  value_length : Option Nat := none
  payload_len : Option Nat := none
  raw_decrypted_int : Option Nat := none
  raw_decrypted_hex : Option String := none
  raw_masked : Option Nat := none
  raw_flags : Option Nat := none
  is_stable : Option Bool := none
  weight_kg : Option ℚ := none
  impedance_ohm_raw : Option Nat := none
  impedance_ohm : Option Nat := none
  clamped : Option Bool := none
deriving DecidableEq, Repr

/-- `LaicaParseReport` dataclass. -/
structure LaicaParseReport where
  payload_hex : String
  payload_len : Nat
  candidate_type_offsets : List Nat
  attempts : List AttemptRecord
  parsed : Option LaicaParsedPacket
deriving DecidableEq, Repr

/-- `_attempt_parse`: bounds-check the value byte range, de-obfuscate it, and
apply the kind-specific extraction and plausibility validation.
Python's `raw & ~WEIGHT_VALUE_MASK` on a nonnegative int clears the mask bits,
i.e. equals `raw - (raw &&& WEIGHT_VALUE_MASK)`. -/
def _attempt_parse (payload : List Nat) (kind : PacketKind)
    (type_offset value_offset value_length : Nat) (scheme : String) :
    Option LaicaParsedPacket × AttemptRecord :=
  let pkt_type := payload.getD type_offset 0
  let attempt : AttemptRecord :=
    { scheme := scheme
      status := .rejected
      reason := none
      kind := some kind
      type_offset := some type_offset
      type_byte := some pkt_type
      value_offset := some value_offset
      value_length := some value_length }
  if value_offset + value_length > payload.length then
    (none, { attempt with reason := some .value_bytes_out_of_range })
  else
    let raw := _decrypt_to_int ((payload.drop value_offset).take value_length)
    match kind with
    | .weight =>
      let raw_masked := raw &&& WEIGHT_VALUE_MASK
      let raw_flags := raw - (raw &&& WEIGHT_VALUE_MASK)
      let is_stable : Bool := decide (raw &&& WEIGHT_STABLE_BIT ≠ 0)
      let weight_kg : ℚ := (round_half_to_even_div raw_masked 100 : ℚ) / 10
      let attempt := { attempt with
        raw_decrypted_int := some raw
        raw_decrypted_hex := some (hexPad (value_length * 2) raw)
        raw_masked := some raw_masked
        raw_flags := some raw_flags
        is_stable := some is_stable
        weight_kg := some weight_kg }
      if ¬ (5 ≤ weight_kg ∧ weight_kg ≤ 400) then
        (none, { attempt with reason := some .weight_out_of_range })
      else
        (some
          { kind := .weight
            type_byte_offset := type_offset
            value_offset := value_offset
            value_length := value_length
            weight_kg := some weight_kg
            is_stable := some is_stable
            raw_flags := some raw_flags
            raw_decrypted_int := some raw
            raw_decrypted_hex := some (hexPad (value_length * 2) raw)
            notes := some ("raw_flags=0x" ++ hexStr raw_flags) },
         { attempt with status := .accepted })
    | .impedance =>
      let impedance := raw
      let clamped := max 430 (min 630 impedance)
      let attempt := { attempt with
        raw_decrypted_int := some raw
        raw_decrypted_hex := some (hexPad (value_length * 2) raw)
        impedance_ohm_raw := some impedance
        impedance_ohm := some clamped
        clamped := some (decide (clamped ≠ impedance)) }
      if ¬ (200 ≤ impedance ∧ impedance ≤ 1200) then
        (none, { attempt with reason := some .impedance_out_of_range })
      else
        (some
          { kind := .impedance
            type_byte_offset := type_offset
            value_offset := value_offset
            value_length := value_length
            impedance_ohm := some clamped
            raw_decrypted_int := some raw
            raw_decrypted_hex := some (hexPad (value_length * 2) raw)
            notes := if clamped ≠ impedance then some "clamped_to_[430,630]" else none },
         { attempt with status := .accepted })

/-- The candidate scanner:
`tuple(idx for idx, b in enumerate(payload) if b in (0x06, 0x0D))`. -/
def candidate_offsets_of (payload : List Nat) : List Nat :=
  (List.range payload.length).filter
    (fun idx => decide (payload.getD idx 0 = PACKET_TYPE_IMPEDANCE ∨
      payload.getD idx 0 = PACKET_TYPE_WEIGHT))

/-- `parse_laica_manufacturer_data`: the decoder's single entry point. -/
def parse_laica_manufacturer_data (payload : List Nat) : LaicaParseReport :=
  let candidate_offsets := candidate_offsets_of payload
  if payload.length ≤ KNOWN_TYPE_OFFSET then
    { payload_hex := bytesHex payload
      payload_len := payload.length
      candidate_type_offsets := candidate_offsets
      attempts := [{ scheme := "known_layout"
                     status := .rejected
                     reason := some .payload_too_short
                     payload_len := some payload.length }]
      parsed := none }
  else
    let pkt_type := payload.getD KNOWN_TYPE_OFFSET 0
    if pkt_type = PACKET_TYPE_WEIGHT then
      let res := _attempt_parse payload .weight KNOWN_TYPE_OFFSET KNOWN_VALUE_OFFSET 4
        "known_layout"
      { payload_hex := bytesHex payload
        payload_len := payload.length
        candidate_type_offsets := candidate_offsets
        attempts := [res.2]
        parsed := res.1 }
    else if pkt_type = PACKET_TYPE_IMPEDANCE then
      let res := _attempt_parse payload .impedance KNOWN_TYPE_OFFSET KNOWN_VALUE_OFFSET 2
        "known_layout"
      { payload_hex := bytesHex payload
        payload_len := payload.length
        candidate_type_offsets := candidate_offsets
        attempts := [res.2]
        parsed := res.1 }
    else
      { payload_hex := bytesHex payload
        payload_len := payload.length
        candidate_type_offsets := candidate_offsets
        attempts := [{ scheme := "known_layout"
                       status := .rejected
                       reason := some .unknown_type_byte_at_known_offset
                       type_offset := some KNOWN_TYPE_OFFSET
                       type_byte := some pkt_type }]
        parsed := none }

/-- The 12-byte reference payload: the bytes following marker `0f ff ac a0`
in the ble_monitor PR #804 advertisement (`scripts/in_vitro_test.py`). -/
def referencePayload : List Nat :=
  [0xa0, 0x2b, 0xbe, 0x5e, 0x91, 0xa0, 0xa0, 0x2c, 0x92, 0x14, 0x0d, 0xbf]

/-- A 12-byte impedance payload whose de-obfuscated value bytes
(`0xA1 0x8C` XOR `0xA0` = `0x01 0x2C`) give a raw impedance of 300 ohm:
inside the acceptance window `[200, 1200]` but below the clamp floor 430. -/
def impedanceClampPayload : List Nat :=
  [0, 0, 0, 0, 0, 0, 0xA1, 0x8C, 0, 0, 0x06, 0]

/-- The de-obfuscated big-endian integer of payload bytes 6..9 (weight path). -/
def weight_raw_of (p : List Nat) : Nat :=
  _decrypt_to_int ((p.drop KNOWN_VALUE_OFFSET).take 4)

/-- The de-obfuscated big-endian integer of payload bytes 6..7 (impedance path). -/
def impedance_raw_of (p : List Nat) : Nat :=
  _decrypt_to_int ((p.drop KNOWN_VALUE_OFFSET).take 2)

/-- The weight the decoder computes on the weight path. -/
def weight_kg_of (p : List Nat) : ℚ :=
  (round_half_to_even_div (weight_raw_of p &&& WEIGHT_VALUE_MASK) 100 : ℚ) / 10

lemma weight_raw_of_fold (p : List Nat) :
    _decrypt_to_int (List.take 4 (List.drop 6 p)) = weight_raw_of p := rfl

lemma impedance_raw_of_fold (p : List Nat) :
    _decrypt_to_int (List.take 2 (List.drop 6 p)) = impedance_raw_of p := rfl

lemma weight_kg_of_fold (p : List Nat) :
    (round_half_to_even_div
      (_decrypt_to_int (List.take 4 (List.drop 6 p)) &&& 262143) 100 : ℚ) / 10 =
    weight_kg_of p := rfl

/-- The diagnostic attempt record shared by both outcomes of the weight path. -/
def weight_att_base (p : List Nat) : AttemptRecord :=
  { scheme := "known_layout"
    status := .rejected
    reason := none
    kind := some .weight
    type_offset := some 10
    type_byte := some (p.getD 10 0)
    value_offset := some 6
    value_length := some 4
    raw_decrypted_int := some (weight_raw_of p)
    raw_decrypted_hex := some (hexPad 8 (weight_raw_of p))
    raw_masked := some (weight_raw_of p &&& WEIGHT_VALUE_MASK)
    raw_flags := some (weight_raw_of p - (weight_raw_of p &&& WEIGHT_VALUE_MASK))
    is_stable := some (decide (weight_raw_of p &&& WEIGHT_STABLE_BIT ≠ 0))
    weight_kg := some (weight_kg_of p) }

/-- The parsed packet produced by an accepted weight attempt. -/
def weight_packet_of (p : List Nat) : LaicaParsedPacket :=
  { kind := .weight
    type_byte_offset := 10
    value_offset := 6
    value_length := 4
    weight_kg := some (weight_kg_of p)
    is_stable := some (decide (weight_raw_of p &&& WEIGHT_STABLE_BIT ≠ 0))
    raw_flags := some (weight_raw_of p - (weight_raw_of p &&& WEIGHT_VALUE_MASK))
    raw_decrypted_int := some (weight_raw_of p)
    raw_decrypted_hex := some (hexPad 8 (weight_raw_of p))
    notes := some ("raw_flags=0x" ++
      hexStr (weight_raw_of p - (weight_raw_of p &&& WEIGHT_VALUE_MASK))) }

/-- The diagnostic attempt record shared by both outcomes of the impedance path. -/
def impedance_att_base (p : List Nat) : AttemptRecord :=
  { scheme := "known_layout"
    status := .rejected
    reason := none
    kind := some .impedance
    type_offset := some 10
    type_byte := some (p.getD 10 0)
    value_offset := some 6
    value_length := some 2
    raw_decrypted_int := some (impedance_raw_of p)
    raw_decrypted_hex := some (hexPad 4 (impedance_raw_of p))
    impedance_ohm_raw := some (impedance_raw_of p)
    impedance_ohm := some (max 430 (min 630 (impedance_raw_of p)))
    clamped := some (decide (max 430 (min 630 (impedance_raw_of p)) ≠ impedance_raw_of p)) }

/-- The parsed packet produced by an accepted impedance attempt. -/
def impedance_packet_of (p : List Nat) : LaicaParsedPacket :=
  { kind := .impedance
    type_byte_offset := 10
    value_offset := 6
    value_length := 2
    impedance_ohm := some (max 430 (min 630 (impedance_raw_of p)))
    raw_decrypted_int := some (impedance_raw_of p)
    raw_decrypted_hex := some (hexPad 4 (impedance_raw_of p))
    notes := if max 430 (min 630 (impedance_raw_of p)) ≠ impedance_raw_of p
      then some "clamped_to_[430,630]" else none }

lemma parse_short_eq (p : List Nat) (h : p.length ≤ 10) :
    parse_laica_manufacturer_data p =
      { payload_hex := bytesHex p
        payload_len := p.length
        candidate_type_offsets := candidate_offsets_of p
        attempts := [{ scheme := "known_layout"
                       status := .rejected
                       reason := some .payload_too_short
                       payload_len := some p.length }]
        parsed := none } := by
  unfold parse_laica_manufacturer_data
  rw [if_pos (show p.length ≤ KNOWN_TYPE_OFFSET from h)]

lemma parse_unknown_eq (p : List Nat) (h : 10 < p.length)
    (hw : p.getD 10 0 ≠ PACKET_TYPE_WEIGHT)
    (hi : p.getD 10 0 ≠ PACKET_TYPE_IMPEDANCE) :
    parse_laica_manufacturer_data p =
      { payload_hex := bytesHex p
        payload_len := p.length
        candidate_type_offsets := candidate_offsets_of p
        attempts := [{ scheme := "known_layout"
                       status := .rejected
                       reason := some .unknown_type_byte_at_known_offset
                       type_offset := some KNOWN_TYPE_OFFSET
                       type_byte := some (p.getD 10 0) }]
        parsed := none } := by
  unfold parse_laica_manufacturer_data
  rw [if_neg (show ¬ p.length ≤ KNOWN_TYPE_OFFSET by
        simp only [KNOWN_TYPE_OFFSET]; omega),
    if_neg (show ¬ p.getD KNOWN_TYPE_OFFSET 0 = PACKET_TYPE_WEIGHT from hw),
    if_neg (show ¬ p.getD KNOWN_TYPE_OFFSET 0 = PACKET_TYPE_IMPEDANCE from hi)]
  rfl

lemma parse_weight_accept (p : List Nat) (hlen : 10 < p.length)
    (ht : p.getD 10 0 = PACKET_TYPE_WEIGHT)
    (hin : 5 ≤ weight_kg_of p ∧ weight_kg_of p ≤ 400) :
    parse_laica_manufacturer_data p =
      { payload_hex := bytesHex p
        payload_len := p.length
        candidate_type_offsets := candidate_offsets_of p
        attempts := [{ weight_att_base p with status := .accepted }]
        parsed := some (weight_packet_of p) } := by
  unfold parse_laica_manufacturer_data _attempt_parse
  simp only [KNOWN_TYPE_OFFSET, KNOWN_VALUE_OFFSET, PACKET_TYPE_WEIGHT,
    PACKET_TYPE_IMPEDANCE, WEIGHT_VALUE_MASK, WEIGHT_STABLE_BIT]
  rw [if_neg (show ¬ p.length ≤ 10 by omega),
    if_pos (show p.getD 10 0 = 13 from ht)]
  rw [if_neg (show ¬ 6 + 4 > p.length by omega)]
  simp only [weight_kg_of_fold]
  simp only [weight_raw_of_fold]
  rw [if_neg (not_not_intro hin)]
  rfl

lemma parse_weight_reject (p : List Nat) (hlen : 10 < p.length)
    (ht : p.getD 10 0 = PACKET_TYPE_WEIGHT)
    (hout : ¬ (5 ≤ weight_kg_of p ∧ weight_kg_of p ≤ 400)) :
    parse_laica_manufacturer_data p =
      { payload_hex := bytesHex p
        payload_len := p.length
        candidate_type_offsets := candidate_offsets_of p
        attempts := [{ weight_att_base p with reason := some .weight_out_of_range }]
        parsed := none } := by
  unfold parse_laica_manufacturer_data _attempt_parse
  simp only [KNOWN_TYPE_OFFSET, KNOWN_VALUE_OFFSET, PACKET_TYPE_WEIGHT,
    PACKET_TYPE_IMPEDANCE, WEIGHT_VALUE_MASK, WEIGHT_STABLE_BIT]
  rw [if_neg (show ¬ p.length ≤ 10 by omega),
    if_pos (show p.getD 10 0 = 13 from ht)]
  rw [if_neg (show ¬ 6 + 4 > p.length by omega)]
  simp only [weight_kg_of_fold]
  simp only [weight_raw_of_fold]
  rw [if_pos hout]
  rfl

lemma parse_impedance_accept (p : List Nat) (hlen : 10 < p.length)
    (ht : p.getD 10 0 = PACKET_TYPE_IMPEDANCE)
    (hin : 200 ≤ impedance_raw_of p ∧ impedance_raw_of p ≤ 1200) :
    parse_laica_manufacturer_data p =
      { payload_hex := bytesHex p
        payload_len := p.length
        candidate_type_offsets := candidate_offsets_of p
        attempts := [{ impedance_att_base p with status := .accepted }]
        parsed := some (impedance_packet_of p) } := by
  unfold parse_laica_manufacturer_data _attempt_parse
  simp only [KNOWN_TYPE_OFFSET, KNOWN_VALUE_OFFSET, PACKET_TYPE_WEIGHT,
    PACKET_TYPE_IMPEDANCE, WEIGHT_VALUE_MASK, WEIGHT_STABLE_BIT]
  rw [if_neg (show ¬ p.length ≤ 10 by omega),
    if_neg (show ¬ p.getD 10 0 = 13 by rw [ht]; decide),
    if_pos (show p.getD 10 0 = 6 from ht)]
  rw [if_neg (show ¬ 6 + 2 > p.length by omega)]
  simp only [impedance_raw_of_fold]
  rw [if_neg (not_not_intro hin)]
  rfl

lemma parse_impedance_reject (p : List Nat) (hlen : 10 < p.length)
    (ht : p.getD 10 0 = PACKET_TYPE_IMPEDANCE)
    (hout : ¬ (200 ≤ impedance_raw_of p ∧ impedance_raw_of p ≤ 1200)) :
    parse_laica_manufacturer_data p =
      { payload_hex := bytesHex p
        payload_len := p.length
        candidate_type_offsets := candidate_offsets_of p
        attempts := [{ impedance_att_base p with
          reason := some .impedance_out_of_range }]
        parsed := none } := by
  unfold parse_laica_manufacturer_data _attempt_parse
  simp only [KNOWN_TYPE_OFFSET, KNOWN_VALUE_OFFSET, PACKET_TYPE_WEIGHT,
    PACKET_TYPE_IMPEDANCE, WEIGHT_VALUE_MASK, WEIGHT_STABLE_BIT]
  rw [if_neg (show ¬ p.length ≤ 10 by omega),
    if_neg (show ¬ p.getD 10 0 = 13 by rw [ht]; decide),
    if_pos (show p.getD 10 0 = 6 from ht)]
  rw [if_neg (show ¬ 6 + 2 > p.length by omega)]
  simp only [impedance_raw_of_fold]
  rw [if_pos hout]
  rfl

lemma qdiv10_le_iff (w k : Nat) : ((w : ℚ) / 10 ≤ k) ↔ w ≤ 10 * k := by
  rw [div_le_iff₀ (by norm_num : (0 : ℚ) < 10)]
  have hc : ((w : ℚ) ≤ (k : ℚ) * 10) ↔ w ≤ k * 10 := by exact_mod_cast Iff.rfl
  rw [hc]
  omega

lemma qdiv10_ge_iff (w k : Nat) : ((k : ℚ) ≤ (w : ℚ) / 10) ↔ 10 * k ≤ w := by
  rw [le_div_iff₀ (by norm_num : (0 : ℚ) < 10)]
  have hc : ((k : ℚ) * 10 ≤ (w : ℚ)) ↔ k * 10 ≤ w := by exact_mod_cast Iff.rfl
  rw [hc]
  omega

/-- C7: the byte-wise XOR transform with key `0xA0` used by `_decrypt_to_int`
is an involution: applying it twice returns the byte sequence unchanged. -/
theorem xor_transform_involution (b : List Nat) :
    xor_transform (xor_transform b) = b := by
  simp [xor_transform, List.map_map, Function.comp_def, Nat.xor_cancel_right]

/-- C5: for every payload of length at most 10 the report has `parsed` absent
and exactly one attempt, a rejected one with reason `payload_too_short`, and
no value extraction is performed (all value fields of the attempt are empty). -/
theorem short_payload_behavior (p : List Nat) (h : p.length ≤ 10) :
    (parse_laica_manufacturer_data p).parsed = none ∧
    ∃ a, (parse_laica_manufacturer_data p).attempts = [a] ∧
      a.status = AttemptStatus.rejected ∧
      a.reason = some RejectReason.payload_too_short ∧
      a.value_offset = none ∧ a.value_length = none ∧
      a.raw_decrypted_int = none ∧ a.weight_kg = none ∧ a.impedance_ohm = none := by
  unfold parse_laica_manufacturer_data
  rw [if_pos (show p.length ≤ KNOWN_TYPE_OFFSET from h)]
  exact ⟨rfl, _, rfl, rfl, rfl, rfl, rfl, rfl, rfl, rfl⟩

/-- Witness for C5 at the empty payload. -/
theorem short_payload_behavior_witness :
    ([] : List Nat).length ≤ 10 ∧
    ((parse_laica_manufacturer_data []).parsed = none ∧
    ∃ a, (parse_laica_manufacturer_data []).attempts = [a] ∧
      a.status = AttemptStatus.rejected ∧
      a.reason = some RejectReason.payload_too_short ∧
      a.value_offset = none ∧ a.value_length = none ∧
      a.raw_decrypted_int = none ∧ a.weight_kg = none ∧ a.impedance_ohm = none) :=
  ⟨by decide, short_payload_behavior [] (by decide)⟩

/-- C6: for every payload of length at least 11 whose byte at offset 10 is
neither `0x0D` nor `0x06`, the report has `parsed` absent and a single
rejected attempt with reason `unknown_type_byte_at_known_offset` recording the
observed type byte. -/
theorem unknown_type_byte_behavior (p : List Nat) (h : 10 < p.length)
    (hw : p.getD 10 0 ≠ PACKET_TYPE_WEIGHT)
    (hi : p.getD 10 0 ≠ PACKET_TYPE_IMPEDANCE) :
    (parse_laica_manufacturer_data p).parsed = none ∧
    ∃ a, (parse_laica_manufacturer_data p).attempts = [a] ∧
      a.status = AttemptStatus.rejected ∧
      a.reason = some RejectReason.unknown_type_byte_at_known_offset ∧
      a.type_byte = some (p.getD 10 0) := by
  unfold parse_laica_manufacturer_data
  rw [if_neg (show ¬ p.length ≤ KNOWN_TYPE_OFFSET by simpa [KNOWN_TYPE_OFFSET] using h),
    if_neg (show ¬ p.getD KNOWN_TYPE_OFFSET 0 = PACKET_TYPE_WEIGHT from hw),
    if_neg (show ¬ p.getD KNOWN_TYPE_OFFSET 0 = PACKET_TYPE_IMPEDANCE from hi)]
  exact ⟨rfl, _, rfl, rfl, rfl, rfl⟩

/-- Witness for C6 at an 11-byte all-zero payload. -/
theorem unknown_type_byte_behavior_witness :
    10 < (List.replicate 11 0).length ∧
    (List.replicate 11 0).getD 10 0 ≠ PACKET_TYPE_WEIGHT ∧
    (List.replicate 11 0).getD 10 0 ≠ PACKET_TYPE_IMPEDANCE ∧
    ((parse_laica_manufacturer_data (List.replicate 11 0)).parsed = none ∧
    ∃ a, (parse_laica_manufacturer_data (List.replicate 11 0)).attempts = [a] ∧
      a.status = AttemptStatus.rejected ∧
      a.reason = some RejectReason.unknown_type_byte_at_known_offset ∧
      a.type_byte = some ((List.replicate 11 0).getD 10 0)) :=
  ⟨by decide, by decide, by decide,
    unknown_type_byte_behavior (List.replicate 11 0) (by decide) (by decide) (by decide)⟩

lemma reference_weight_kg : weight_kg_of referencePayload = 13 := by
  unfold weight_kg_of WEIGHT_VALUE_MASK
  rw [show weight_raw_of referencePayload = 9188020 by decide]
  rw [show (9188020 &&& 0x3FFFF : Nat) = 12980 by decide]
  rw [show round_half_to_even_div 12980 100 = 130 from rfl]
  norm_num

lemma reference_weight_in_range :
    5 ≤ weight_kg_of referencePayload ∧ weight_kg_of referencePayload ≤ 400 := by
  rw [reference_weight_kg]
  norm_num

lemma parse_reference_eq :
    parse_laica_manufacturer_data referencePayload =
      { payload_hex := bytesHex referencePayload
        payload_len := referencePayload.length
        candidate_type_offsets := candidate_offsets_of referencePayload
        attempts := [{ weight_att_base referencePayload with
          status := .accepted }]
        parsed := some (weight_packet_of referencePayload) } :=
  parse_weight_accept referencePayload (by decide) (by decide)
    reference_weight_in_range

/-- C10: no attempt ever carries reason `value_bytes_out_of_range`, and every
attempt that records value extraction parameters satisfies
`value_offset + value_length ≤ payload length`. -/
theorem value_bytes_in_range (p : List Nat) :
    ∀ a ∈ (parse_laica_manufacturer_data p).attempts,
      a.reason ≠ some RejectReason.value_bytes_out_of_range ∧
      ∀ vo vl, a.value_offset = some vo → a.value_length = some vl →
        vo + vl ≤ p.length := by
  intro a ha
  unfold parse_laica_manufacturer_data _attempt_parse at ha
  simp only [KNOWN_TYPE_OFFSET, KNOWN_VALUE_OFFSET, PACKET_TYPE_WEIGHT,
    PACKET_TYPE_IMPEDANCE, WEIGHT_VALUE_MASK, WEIGHT_STABLE_BIT] at ha
  split_ifs at ha with h1 h2 h3 h4 h5 h6 h7
  all_goals simp only [List.mem_singleton] at ha
  all_goals subst ha
  all_goals first
    | (exfalso; omega)
    | (refine ⟨by simp, ?_⟩
       intro vo vl hvo hvl
       first
         | (simp only [Option.some.injEq] at hvo hvl; omega)
         | exact absurd hvo (by simp))

/-- Witness for C10 at the reference payload's single (accepted) attempt. -/
theorem value_bytes_in_range_witness :
    ({ weight_att_base referencePayload with status := AttemptStatus.accepted } ∈
      (parse_laica_manufacturer_data referencePayload).attempts) ∧
    (({ weight_att_base referencePayload with
        status := AttemptStatus.accepted } : AttemptRecord).reason ≠
      some RejectReason.value_bytes_out_of_range ∧
    ∀ vo vl,
      ({ weight_att_base referencePayload with
          status := AttemptStatus.accepted } : AttemptRecord).value_offset =
        some vo →
      ({ weight_att_base referencePayload with
          status := AttemptStatus.accepted } : AttemptRecord).value_length =
        some vl →
      vo + vl ≤ referencePayload.length) := by
  have hmem : { weight_att_base referencePayload with
      status := AttemptStatus.accepted } ∈
      (parse_laica_manufacturer_data referencePayload).attempts := by
    rw [parse_reference_eq]
    exact List.mem_singleton_self _
  exact ⟨hmem, value_bytes_in_range referencePayload _ hmem⟩

/-- C9: the decoder is total on every byte input (the embedding is a total
function); the attempt list is never empty, and when no attempt is accepted
the report has `parsed` absent and a rejected attempt with a present reason. -/
theorem decoder_totality (p : List Nat) :
    (parse_laica_manufacturer_data p).attempts ≠ [] ∧
    ((∀ a ∈ (parse_laica_manufacturer_data p).attempts,
        a.status = AttemptStatus.rejected) →
      (parse_laica_manufacturer_data p).parsed = none ∧
      ∃ a ∈ (parse_laica_manufacturer_data p).attempts,
        a.status = AttemptStatus.rejected ∧ a.reason ≠ none) := by
  unfold parse_laica_manufacturer_data _attempt_parse
  simp only [KNOWN_TYPE_OFFSET, KNOWN_VALUE_OFFSET, PACKET_TYPE_WEIGHT,
    PACKET_TYPE_IMPEDANCE, WEIGHT_VALUE_MASK, WEIGHT_STABLE_BIT]
  split_ifs with h1 h2 h3 h4 h5 h6 h7
  all_goals refine ⟨by simp, ?_⟩
  all_goals intro hall
  all_goals first
    | exact ⟨rfl, _, List.mem_singleton_self _, rfl, by simp⟩
    | exact absurd (hall _ (List.mem_singleton_self _)) (by simp)

/-- Witness for C9 at the empty payload. -/
theorem decoder_totality_witness :
    (parse_laica_manufacturer_data []).attempts ≠ [] ∧
    ((∀ a ∈ (parse_laica_manufacturer_data []).attempts,
        a.status = AttemptStatus.rejected) →
      (parse_laica_manufacturer_data []).parsed = none ∧
      ∃ a ∈ (parse_laica_manufacturer_data []).attempts,
        a.status = AttemptStatus.rejected ∧ a.reason ≠ none) :=
  decoder_totality []

/-- C8: the report's `candidate_type_offsets` is the strictly increasing
sequence of exactly those offsets holding `0x0D` or `0x06`; it is empty for
the empty payload, and contains offset 10 whenever the byte there is a marker,
for every payload (so independently of the known-layout attempt's outcome). -/
theorem candidate_offsets_spec (p : List Nat) :
    (parse_laica_manufacturer_data p).candidate_type_offsets =
      candidate_offsets_of p ∧
    List.Pairwise (· < ·) (parse_laica_manufacturer_data p).candidate_type_offsets ∧
    (∀ i, i ∈ (parse_laica_manufacturer_data p).candidate_type_offsets ↔
      i < p.length ∧
        (p.getD i 0 = PACKET_TYPE_WEIGHT ∨ p.getD i 0 = PACKET_TYPE_IMPEDANCE)) ∧
    (p = [] → (parse_laica_manufacturer_data p).candidate_type_offsets = []) ∧
    (10 < p.length →
      (p.getD 10 0 = PACKET_TYPE_WEIGHT ∨ p.getD 10 0 = PACKET_TYPE_IMPEDANCE) →
      10 ∈ (parse_laica_manufacturer_data p).candidate_type_offsets) := by
  have hc : (parse_laica_manufacturer_data p).candidate_type_offsets =
      candidate_offsets_of p := by
    unfold parse_laica_manufacturer_data
    dsimp only
    split_ifs <;> rfl
  have hmem : ∀ i, i ∈ candidate_offsets_of p ↔
      i < p.length ∧
        (p.getD i 0 = PACKET_TYPE_WEIGHT ∨ p.getD i 0 = PACKET_TYPE_IMPEDANCE) := by
    intro i
    simp only [candidate_offsets_of, List.mem_filter, List.mem_range,
      decide_eq_true_eq]
    tauto
  refine ⟨hc, ?_, ?_, ?_, ?_⟩
  · rw [hc]
    exact (List.pairwise_lt_range _).filter _
  · intro i
    rw [hc]
    exact hmem i
  · intro hp
    rw [hc, hp]
    rfl
  · intro hlen hbyte
    rw [hc]
    exact (hmem 10).2 ⟨hlen, hbyte⟩

/-- Witness for C8 at the reference payload. -/
theorem candidate_offsets_spec_witness :
    (parse_laica_manufacturer_data referencePayload).candidate_type_offsets =
      candidate_offsets_of referencePayload ∧
    List.Pairwise (· < ·)
      (parse_laica_manufacturer_data referencePayload).candidate_type_offsets ∧
    (∀ i, i ∈ (parse_laica_manufacturer_data referencePayload).candidate_type_offsets ↔
      i < referencePayload.length ∧
        (referencePayload.getD i 0 = PACKET_TYPE_WEIGHT ∨
          referencePayload.getD i 0 = PACKET_TYPE_IMPEDANCE)) ∧
    (referencePayload = [] →
      (parse_laica_manufacturer_data referencePayload).candidate_type_offsets = []) ∧
    (10 < referencePayload.length →
      (referencePayload.getD 10 0 = PACKET_TYPE_WEIGHT ∨
        referencePayload.getD 10 0 = PACKET_TYPE_IMPEDANCE) →
      10 ∈ (parse_laica_manufacturer_data referencePayload).candidate_type_offsets) :=
  candidate_offsets_spec referencePayload

lemma mask_mod_eq (n : Nat) : n &&& 0x3FFFF = n % 2 ^ 18 := by
  rw [show (0x3FFFF : Nat) = 2 ^ 18 - 1 by norm_num]
  exact Nat.and_pow_two_sub_one_eq_mod n 18

/-- `round_half_to_even_div · 100` is a round-half rule: the result times the
denominator is within half a denominator of the numerator. -/
lemma round_half_close (m : Nat) :
    2 * m ≤ 2 * round_half_to_even_div m 100 * 100 + 100 ∧
    2 * round_half_to_even_div m 100 * 100 ≤ 2 * m + 100 := by
  unfold round_half_to_even_div
  dsimp only
  split_ifs <;> omega

lemma clamp_bounds (r : Nat) :
    430 ≤ max 430 (min 630 r) ∧ max 430 (min 630 r) ≤ 630 :=
  ⟨le_max_left _ _, max_le (by norm_num) (min_le_left _ _)⟩

lemma clamp_ne_iff (r : Nat) :
    (max 430 (min 630 r) ≠ r) ↔ (r < 430 ∨ 630 < r) := by
  simp only [Nat.max_def, Nat.min_def]
  split_ifs <;> omega

/-- C4: every accepted weight packet carries a weight in `[5, 400]`, and a
computed weight outside that range yields a single rejected
`weight_out_of_range` attempt with `parsed` absent. -/
theorem weight_range_invariant (p : List Nat) :
    (∀ pkt, (parse_laica_manufacturer_data p).parsed = some pkt →
      pkt.kind = PacketKind.weight →
      ∃ w, pkt.weight_kg = some w ∧ 5 ≤ w ∧ w ≤ 400) ∧
    (10 < p.length → p.getD 10 0 = PACKET_TYPE_WEIGHT →
      ¬ (5 ≤ weight_kg_of p ∧ weight_kg_of p ≤ 400) →
      (parse_laica_manufacturer_data p).parsed = none ∧
      ∃ a, (parse_laica_manufacturer_data p).attempts = [a] ∧
        a.status = AttemptStatus.rejected ∧
        a.reason = some RejectReason.weight_out_of_range ∧
        a.weight_kg = some (weight_kg_of p)) := by
  constructor
  · intro pkt hp hk
    by_cases hlen : p.length ≤ 10
    · rw [parse_short_eq p hlen] at hp
      exact absurd hp (by simp)
    · by_cases ht : p.getD 10 0 = PACKET_TYPE_WEIGHT
      · by_cases hin : 5 ≤ weight_kg_of p ∧ weight_kg_of p ≤ 400
        · rw [parse_weight_accept p (by omega) ht hin] at hp
          simp only [Option.some.injEq] at hp
          subst hp
          exact ⟨weight_kg_of p, rfl, hin.1, hin.2⟩
        · rw [parse_weight_reject p (by omega) ht hin] at hp
          exact absurd hp (by simp)
      · by_cases hti : p.getD 10 0 = PACKET_TYPE_IMPEDANCE
        · by_cases hgi : 200 ≤ impedance_raw_of p ∧ impedance_raw_of p ≤ 1200
          · rw [parse_impedance_accept p (by omega) hti hgi] at hp
            simp only [Option.some.injEq] at hp
            subst hp
            exact absurd hk (by simp [impedance_packet_of])
          · rw [parse_impedance_reject p (by omega) hti hgi] at hp
            exact absurd hp (by simp)
        · rw [parse_unknown_eq p (by omega) ht hti] at hp
          exact absurd hp (by simp)
  · intro hlen ht hout
    rw [parse_weight_reject p hlen ht hout]
    exact ⟨rfl, _, rfl, rfl, rfl, rfl⟩

/-- Witness for C4 at the reference payload. -/
theorem weight_range_invariant_witness :
    (∀ pkt, (parse_laica_manufacturer_data referencePayload).parsed = some pkt →
      pkt.kind = PacketKind.weight →
      ∃ w, pkt.weight_kg = some w ∧ 5 ≤ w ∧ w ≤ 400) ∧
    (10 < referencePayload.length →
      referencePayload.getD 10 0 = PACKET_TYPE_WEIGHT →
      ¬ (5 ≤ weight_kg_of referencePayload ∧ weight_kg_of referencePayload ≤ 400) →
      (parse_laica_manufacturer_data referencePayload).parsed = none ∧
      ∃ a, (parse_laica_manufacturer_data referencePayload).attempts = [a] ∧
        a.status = AttemptStatus.rejected ∧
        a.reason = some RejectReason.weight_out_of_range ∧
        a.weight_kg = some (weight_kg_of referencePayload)) :=
  weight_range_invariant referencePayload

/-- C2: on the weight path the attempt records exactly the claimed mask, flag,
stability and rounding formulas (the 18-bit mask written both as `&&& 0x3FFFF`
and as `% 2 ^ 18`), any resulting packet mirrors them, and the rounding used
is a single round-half rule (round half to even) applied once before the
division by 10. -/
theorem weight_path_field_formulas (p : List Nat) (hlen : 10 < p.length)
    (ht : p.getD 10 0 = PACKET_TYPE_WEIGHT) :
    (∃ a, (parse_laica_manufacturer_data p).attempts = [a] ∧
      a.raw_masked = some (weight_raw_of p &&& 0x3FFFF) ∧
      a.raw_masked = some (weight_raw_of p % 2 ^ 18) ∧
      a.raw_flags = some (weight_raw_of p - weight_raw_of p % 2 ^ 18) ∧
      a.is_stable = some (decide (weight_raw_of p &&& 0x80000000 ≠ 0)) ∧
      a.weight_kg =
        some ((round_half_to_even_div (weight_raw_of p % 2 ^ 18) 100 : ℚ) / 10) ∧
      ∀ pkt, (parse_laica_manufacturer_data p).parsed = some pkt →
        pkt.raw_flags = a.raw_flags ∧ pkt.is_stable = a.is_stable ∧
          pkt.weight_kg = a.weight_kg) ∧
    (∀ m : Nat, 2 * m ≤ 2 * round_half_to_even_div m 100 * 100 + 100 ∧
      2 * round_half_to_even_div m 100 * 100 ≤ 2 * m + 100) := by
  have hm := mask_mod_eq (weight_raw_of p)
  refine ⟨?_, round_half_close⟩
  by_cases hin : 5 ≤ weight_kg_of p ∧ weight_kg_of p ≤ 400
  · rw [parse_weight_accept p hlen ht hin]
    simp only [weight_att_base, weight_packet_of, weight_kg_of,
      WEIGHT_VALUE_MASK, WEIGHT_STABLE_BIT, hm]
    refine ⟨_, rfl, rfl, rfl, rfl, rfl, rfl, ?_⟩
    intro pkt hp
    simp only [Option.some.injEq] at hp
    subst hp
    exact ⟨rfl, rfl, rfl⟩
  · rw [parse_weight_reject p hlen ht hin]
    simp only [weight_att_base, weight_kg_of,
      WEIGHT_VALUE_MASK, WEIGHT_STABLE_BIT, hm]
    refine ⟨_, rfl, rfl, rfl, rfl, rfl, rfl, ?_⟩
    intro pkt hp
    exact absurd hp (by simp)

/-- Witness for C2 at the reference payload. -/
theorem weight_path_field_formulas_witness :
    10 < referencePayload.length ∧
    referencePayload.getD 10 0 = PACKET_TYPE_WEIGHT ∧
    ((∃ a, (parse_laica_manufacturer_data referencePayload).attempts = [a] ∧
      a.raw_masked = some (weight_raw_of referencePayload &&& 0x3FFFF) ∧
      a.raw_masked = some (weight_raw_of referencePayload % 2 ^ 18) ∧
      a.raw_flags =
        some (weight_raw_of referencePayload -
          weight_raw_of referencePayload % 2 ^ 18) ∧
      a.is_stable =
        some (decide (weight_raw_of referencePayload &&& 0x80000000 ≠ 0)) ∧
      a.weight_kg =
        some ((round_half_to_even_div
          (weight_raw_of referencePayload % 2 ^ 18) 100 : ℚ) / 10) ∧
      ∀ pkt, (parse_laica_manufacturer_data referencePayload).parsed = some pkt →
        pkt.raw_flags = a.raw_flags ∧ pkt.is_stable = a.is_stable ∧
          pkt.weight_kg = a.weight_kg) ∧
    (∀ m : Nat, 2 * m ≤ 2 * round_half_to_even_div m 100 * 100 + 100 ∧
      2 * round_half_to_even_div m 100 * 100 ≤ 2 * m + 100)) :=
  ⟨by decide, by decide,
    weight_path_field_formulas referencePayload (by decide) (by decide)⟩

/-- C3 (amended): on the impedance path the attempt is accepted iff the raw
reading lies in `[200, 1200]` (otherwise a single rejected
`impedance_out_of_range` attempt with `parsed` absent); every accepted packet
reports the raw value clamped into `[430, 630]`, and its `notes` field equals
`"clamped_to_[430,630]"` (not the bare string `"clamped"` of the claim) iff
the raw accepted reading fell outside `[430, 630]`. -/
theorem impedance_clamp_invariant_amended (p : List Nat) (hlen : 10 < p.length)
    (ht : p.getD 10 0 = PACKET_TYPE_IMPEDANCE) :
    ((parse_laica_manufacturer_data p).parsed.isSome ↔
      200 ≤ impedance_raw_of p ∧ impedance_raw_of p ≤ 1200) ∧
    (¬ (200 ≤ impedance_raw_of p ∧ impedance_raw_of p ≤ 1200) →
      (parse_laica_manufacturer_data p).parsed = none ∧
      ∃ a, (parse_laica_manufacturer_data p).attempts = [a] ∧
        a.status = AttemptStatus.rejected ∧
        a.reason = some RejectReason.impedance_out_of_range) ∧
    (∀ pkt, (parse_laica_manufacturer_data p).parsed = some pkt →
      pkt.kind = PacketKind.impedance ∧
      pkt.impedance_ohm = some (max 430 (min 630 (impedance_raw_of p))) ∧
      (∃ i, pkt.impedance_ohm = some i ∧ 430 ≤ i ∧ i ≤ 630) ∧
      (pkt.notes = some "clamped_to_[430,630]" ↔
        (impedance_raw_of p < 430 ∨ 630 < impedance_raw_of p))) := by
  by_cases hin : 200 ≤ impedance_raw_of p ∧ impedance_raw_of p ≤ 1200
  · rw [parse_impedance_accept p hlen ht hin]
    refine ⟨by simp [hin], fun hout => absurd hin hout, ?_⟩
    intro pkt hp
    simp only [Option.some.injEq] at hp
    subst hp
    refine ⟨rfl, rfl, ⟨_, rfl, (clamp_bounds _).1, (clamp_bounds _).2⟩, ?_⟩
    by_cases hcl : max 430 (min 630 (impedance_raw_of p)) ≠ impedance_raw_of p
    · simp only [impedance_packet_of, if_pos hcl]
      simp [(clamp_ne_iff _).mp hcl]
    · simp only [impedance_packet_of, if_neg hcl]
      constructor
      · intro hfalse
        exact absurd hfalse (by simp)
      · intro hr
        exact absurd ((clamp_ne_iff _).mpr hr) hcl
  · rw [parse_impedance_reject p hlen ht hin]
    refine ⟨by simp [hin], ?_, ?_⟩
    · intro hout
      exact ⟨rfl, _, rfl, rfl, rfl⟩
    · intro pkt hp
      exact absurd hp (by simp)

/-- Witness for C3 (amended) at a payload carrying a raw impedance of 300. -/
theorem impedance_clamp_invariant_amended_witness :
    10 < impedanceClampPayload.length ∧
    impedanceClampPayload.getD 10 0 = PACKET_TYPE_IMPEDANCE ∧
    (((parse_laica_manufacturer_data impedanceClampPayload).parsed.isSome ↔
      200 ≤ impedance_raw_of impedanceClampPayload ∧
        impedance_raw_of impedanceClampPayload ≤ 1200) ∧
    (¬ (200 ≤ impedance_raw_of impedanceClampPayload ∧
        impedance_raw_of impedanceClampPayload ≤ 1200) →
      (parse_laica_manufacturer_data impedanceClampPayload).parsed = none ∧
      ∃ a, (parse_laica_manufacturer_data impedanceClampPayload).attempts = [a] ∧
        a.status = AttemptStatus.rejected ∧
        a.reason = some RejectReason.impedance_out_of_range) ∧
    (∀ pkt, (parse_laica_manufacturer_data impedanceClampPayload).parsed = some pkt →
      pkt.kind = PacketKind.impedance ∧
      pkt.impedance_ohm =
        some (max 430 (min 630 (impedance_raw_of impedanceClampPayload))) ∧
      (∃ i, pkt.impedance_ohm = some i ∧ 430 ≤ i ∧ i ≤ 630) ∧
      (pkt.notes = some "clamped_to_[430,630]" ↔
        (impedance_raw_of impedanceClampPayload < 430 ∨
          630 < impedance_raw_of impedanceClampPayload)))) :=
  ⟨by decide, by decide,
    impedance_clamp_invariant_amended impedanceClampPayload (by decide) (by decide)⟩

/-- Counterexample to C3 as stated: this payload decodes to an accepted
impedance packet whose raw reading 300 lies outside `[430, 630]` (it is
clamped to 430), yet the packet's `notes` field is not the string
`"clamped"`. -/
theorem impedance_notes_literal_counterexample :
    ∃ pkt, (parse_laica_manufacturer_data impedanceClampPayload).parsed = some pkt ∧
      pkt.raw_decrypted_int = some 300 ∧
      pkt.impedance_ohm = some 430 ∧
      pkt.notes ≠ some "clamped" := by
  rw [parse_impedance_accept impedanceClampPayload (by decide) (by decide)
    (by decide)]
  exact ⟨_, rfl, by decide, by decide, by decide⟩

/-- C1: the reference payload decodes to an accepted weight packet of 13 kg. -/
theorem reference_vector_weight_13 :
    ∃ pkt, (parse_laica_manufacturer_data referencePayload).parsed = some pkt ∧
      pkt.kind = PacketKind.weight ∧ pkt.weight_kg = some 13 := by
  rw [parse_reference_eq]
  exact ⟨_, rfl, rfl, by simp [weight_packet_of, reference_weight_kg]⟩

end Laica
